import Mathlib

/-!
Verification of the QtSignalForwarder dispatch engine (qt-signal-tools).

The repository ships the class header `src/QtSignalForwarder.h`, which fixes
the data model (the `Binding` and `EventBinding` records, the binding tables
`m_signalBindings`, `m_eventBindings`, the free slot-id list
`m_freeSignalBindingIds`) and the inline member bodies (notably
`Binding::paramType`).  The out-of-line member bodies (`bind`, `unbind`,
`qt_metacall`, `delayedCall`, ...) are not part of the sources at hand, so
those operations are modelled from the specification document, as flagged by
each definition's doc comment.

Objects (`QObject*`) are modelled as natural numbers, with `0` standing for
the null pointer.  Raw signal argument slots (`void**`) are modelled as a
list of opaque naturals.
-/

/-- A normalized parameter type name as compared by the runtime type check.
The name itself is opaque; `objectPtrLike` records whether the type is an
object-pointer-like type (the spec's matching rule treats any two such types
as compatible). -/
structure ParamType where
  name : Nat
  objectPtrLike : Bool
deriving DecidableEq, Repr

/-- Modelled from the spec: the Callable Adapter collaborator
(`QtMetacallAdapter`) exposes an ordered sequence of expected parameter type
names and is invokable; `cbId` stands for the identity of the wrapped
callable so invocations can be traced. -/
structure QtMetacallAdapter where
  paramTypes : List ParamType
  cbId : Nat
deriving DecidableEq, Repr

/-- Modelled from the spec: the adapter's declared parameter count
(`cb.arity()`), the length of its expected parameter type sequence. -/
def QtMetacallAdapter.arity (cb : QtMetacallAdapter) : Nat :=
  cb.paramTypes.length

/-- The signal `Binding` record, following the `Binding` struct of
`src/QtSignalForwarder.h` (sender, context, signalIndex, paramTypes,
callback). -/
structure Binding where
  sender : Nat
  context : Nat
  signalIndex : Int
  paramTypes : List ParamType
  callback : QtMetacallAdapter
deriving DecidableEq, Repr

/-- Embedding of `Binding::paramType` from `src/QtSignalForwarder.h`
(lines 168-174): out-of-range indices yield the null pointer (`none`),
in-range indices yield the stored type name. -/
def Binding.paramType (b : Binding) (index : Nat) : Option ParamType :=
  if b.paramTypes.length ≤ index then
    none
  else
    b.paramTypes.get? index

/-- The `EventBinding` record, following the `EventBinding` struct of
`src/QtSignalForwarder.h`.  The `filter` predicate (`EventFilterFunc`) is
kept as an opaque identifier, `none` for the null filter. -/
structure EventBinding where
  sender : Nat
  eventType : Nat
  filter : Option Nat
  callback : QtMetacallAdapter
deriving DecidableEq, Repr

/-- Dispatcher state, following the private tables of `QtSignalForwarder`:
`signalBindings` is the binding-id -> `Binding` table kept in registration
order (the order the spec uses to break dispatch ties), `eventBindings` the
sender-keyed event binding store, `freeSignalBindingIds` the list of
available method ids for new signal bindings.  The sender and context index
hashes of the class are recovered by scanning `signalBindings`. -/
structure QtSignalForwarder where
  signalBindings : List (Nat × Binding)
  eventBindings : List (Nat × EventBinding)
  freeSignalBindingIds : List Nat
deriving DecidableEq, Repr

/-- Modelled from the spec: construction fixes the bounded slot-id pool;
a fresh dispatcher has no bindings and `poolSize` free slot ids. -/
def QtSignalForwarder.initState (poolSize : Nat) : QtSignalForwarder :=
  { signalBindings := []
    eventBindings := []
    freeSignalBindingIds := List.range poolSize }

/-- An invocation record produced by dispatch: the identity of the invoked
callable and the argument slots passed to it, in order. -/
structure Invocation where
  cb : Nat
  args : List Nat
deriving DecidableEq, Repr

/-- Modelled from the spec: two parameter types are compatible when they have
the identical normalized type name or both represent object-pointer-like
types. -/
def typeCompatible (a b : ParamType) : Bool :=
  a == b || (a.objectPtrLike && b.objectPtrLike)

/-- Modelled from the spec: `checkTypeMatch` accepts a callback declaring
fewer or equal parameters than the notification provides, with each declared
callback parameter type compatible with the notification parameter at the
same position; extra trailing notification parameters are ignored. -/
def checkTypeMatch (callback : QtMetacallAdapter) (paramTypes : List ParamType) : Bool :=
  decide (callback.arity ≤ paramTypes.length) &&
    (List.zip callback.paramTypes paramTypes).all fun p => typeCompatible p.1 p.2

/-- The lowest id in a list of free slot ids, `none` when the list is empty. -/
def lowestFree : List Nat → Option Nat
  | [] => none
  | i :: rest =>
    match lowestFree rest with
    | none => some i
    | some m => some (min i m)

/-- Modelled from the spec: `canAddSignalBindings` reports whether the
bounded slot-id pool still has a free id. -/
def QtSignalForwarder.canAddSignalBindings (st : QtSignalForwarder) : Bool :=
  !st.freeSignalBindingIds.isEmpty

/-- Modelled from the spec: `bind(sender, signal, context, callback)` with
the notification already resolved to its emitter-local `signalIndex` and
ordered parameter type list.  It fails (returning `false` with the state
unchanged) when the argument types cannot be matched against the callback or
when the slot-id pool is exhausted; on success it allocates the lowest free
slot id, stores the Signal Binding (appended, so the table stays in
registration order) and removes the id from the pool. -/
def QtSignalForwarder.bind (st : QtSignalForwarder) (sender : Nat) (signalIndex : Int)
    (signalParams : List ParamType) (context : Nat) (callback : QtMetacallAdapter) :
    Bool × QtSignalForwarder :=
  if !checkTypeMatch callback signalParams then
    (false, st)
  else if !st.canAddSignalBindings then
    (false, st)
  else
    match lowestFree st.freeSignalBindingIds with
    | none => (false, st)
    | some id =>
      (true,
        { st with
          signalBindings :=
            st.signalBindings ++ [(id, ⟨sender, context, signalIndex, signalParams, callback⟩)]
          freeSignalBindingIds := st.freeSignalBindingIds.erase id })

/-- Does a binding belong to `(sender, signalIndex)`? -/
def bindingMatches (b : Binding) (sender : Nat) (signalIndex : Int) : Bool :=
  b.sender == sender && b.signalIndex == signalIndex

/-- `matchBinding` as documented in `src/QtSignalForwarder.h` line 199,
behaviour modelled from the spec: the first-registered binding for
`(sender, signalIndex)`. -/
def QtSignalForwarder.matchBinding (st : QtSignalForwarder) (sender : Nat)
    (signalIndex : Int) : Option Binding :=
  (st.signalBindings.find? fun p => bindingMatches p.2 sender signalIndex).map (·.2)

/-- Modelled from the spec: notification delivery (`qt_metacall` +
`invokeBinding`).  Dispatch looks up the first-registered binding matching
`(sender, signalIndex)`; only that binding's callback is invoked, with the
raw arguments truncated to the callback's declared arity.  The result is the
list of invocations performed. -/
def QtSignalForwarder.dispatchSignal (st : QtSignalForwarder) (sender : Nat)
    (signalIndex : Int) (args : List Nat) : List Invocation :=
  match st.matchBinding sender signalIndex with
  | none => []
  | some b => [⟨b.callback.cbId, args.take b.callback.arity⟩]

/-- Modelled from the spec: `unbind(sender, signal)` removes every binding on
`sender` for the resolved notification id and releases their slot ids back
to the pool. -/
def QtSignalForwarder.unbindSignal (st : QtSignalForwarder) (sender : Nat)
    (signalIndex : Int) : QtSignalForwarder :=
  { st with
    signalBindings :=
      st.signalBindings.filter fun p => !bindingMatches p.2 sender signalIndex
    freeSignalBindingIds :=
      st.freeSignalBindingIds ++
        (st.signalBindings.filter fun p => bindingMatches p.2 sender signalIndex).map Prod.fst }

/-- Modelled from the spec: destruction of `obj` (the Lifetime Tracker
path).  Every signal binding naming `obj` as sender or as context is
removed, its slot id released; the event binding store entry keyed by `obj`
is removed as well. -/
def QtSignalForwarder.destroyObject (st : QtSignalForwarder) (obj : Nat) : QtSignalForwarder :=
  { st with
    signalBindings :=
      st.signalBindings.filter fun p => !(p.2.sender == obj || p.2.context == obj)
    eventBindings := st.eventBindings.filter fun p => !(p.1 == obj)
    freeSignalBindingIds :=
      st.freeSignalBindingIds ++
        (st.signalBindings.filter fun p => p.2.sender == obj || p.2.context == obj).map
          Prod.fst }

/-- Modelled from the spec: `bind(sender, event, callback, filter)` stores
one Event Binding keyed by `sender` alone (the store is
`QHash<QObject*,EventBinding>`), so a new binding on the same sender
replaces the previous one regardless of event kind. -/
def QtSignalForwarder.bindEvent (st : QtSignalForwarder) (sender : Nat) (eventType : Nat)
    (callback : QtMetacallAdapter) (filter : Option Nat) : QtSignalForwarder :=
  { st with
    eventBindings :=
      (st.eventBindings.filter fun p => !(p.1 == sender)) ++
        [(sender, ⟨sender, eventType, filter, callback⟩)] }

/-- Modelled from the spec: `unbind(sender, event)` removes the event
binding stored for `sender` when its recorded event kind is `eventType`. -/
def QtSignalForwarder.unbindEvent (st : QtSignalForwarder) (sender : Nat)
    (eventType : Nat) : QtSignalForwarder :=
  { st with
    eventBindings :=
      st.eventBindings.filter fun p => !(p.1 == sender && p.2.eventType == eventType) }

/-- The event binding stored for `sender`, if any. -/
def QtSignalForwarder.eventBindingFor (st : QtSignalForwarder) (sender : Nat) :
    Option EventBinding :=
  (st.eventBindings.find? fun p => p.1 == sender).map (·.2)

/-- `bindingCount` of `src/QtSignalForwarder.h` lines 92-95, modelled from
the spec: the number of live signal bindings (event bindings excluded). -/
def QtSignalForwarder.bindingCount (st : QtSignalForwarder) : Nat :=
  st.signalBindings.length

/-- A pending deferred call: the earliest time it may fire (its schedule
time plus the minimum delay), the optional context object (`0` for none) and
the callable identity. -/
structure DelayedCall where
  readyTime : Nat
  context : Nat
  cb : Nat
deriving DecidableEq, Repr

/-- An event of the cooperative scheduler: time passing, the run loop
attempting to fire the pending call, or destruction of an object. -/
inductive SchedEvent where
  | tick (d : Nat)
  | fire
  | destroy (o : Nat)
deriving DecidableEq, Repr

/-- Deferred Call Scheduler state: the current time, the pending call (if
any) and the log of performed invocations as (time, callable) pairs. -/
structure Scheduler where
  now : Nat
  pending : Option DelayedCall
  log : List (Nat × Nat)
deriving DecidableEq, Repr

/-- Modelled from the spec: one cooperative scheduler step.  Time may pass;
the run loop may fire the pending call, but only once its minimum delay has
elapsed (there is no upper bound: firing happens only at a `fire` event);
destroying the pending call's non-null context cancels it, releasing the
timer without invoking the callable. -/
def schedStep (s : Scheduler) (e : SchedEvent) : Scheduler :=
  match e with
  | .tick d => { s with now := s.now + d }
  | .fire =>
    match s.pending with
    | none => s
    | some t =>
      if t.readyTime ≤ s.now then
        { s with pending := none, log := s.log ++ [(s.now, t.cb)] }
      else
        s
  | .destroy o =>
    match s.pending with
    | none => s
    | some t =>
      if t.context == o && !(o == 0) then
        { s with pending := none }
      else
        s

/-- Run the scheduler over a sequence of events. -/
def schedRun (s : Scheduler) (es : List SchedEvent) : Scheduler :=
  es.foldl schedStep s

/-- Modelled from the spec: `delayedCall(minDelay, context, callback)`
issued at time `now` schedules exactly one pending invocation of `callback`
that may fire no earlier than `now + minDelay`. -/
def delayedCall (now minDelay context cb : Nat) : Scheduler :=
  { now := now, pending := some ⟨now + minDelay, context, cb⟩, log := [] }

/-- Safety invariant of the scheduler started by
`delayedCall t0 d ctx cb`: every logged invocation is of `cb`, at a time
between `t0 + d` and the current time; at most one invocation is ever
logged; while a call is pending it is the scheduled one and nothing has been
logged. -/
def schedInv (t0 d ctx cb : Nat) (s : Scheduler) : Prop :=
  (∀ p ∈ s.log, p.2 = cb ∧ t0 + d ≤ p.1 ∧ p.1 ≤ s.now) ∧
  s.log.length ≤ 1 ∧
  (∀ t, s.pending = some t → t = ⟨t0 + d, ctx, cb⟩ ∧ s.log = [])

/-- Progress invariant of the scheduler started by `delayedCall t0 d ctx cb`,
maintained while the context is not destroyed: either the call is still
pending with an empty log, or it has fired exactly once. -/
def schedLive (t0 d ctx cb : Nat) (s : Scheduler) : Prop :=
  (s.pending = some ⟨t0 + d, ctx, cb⟩ ∧ s.log = []) ∨
  (s.pending = none ∧ s.log.length = 1)

theorem lowestFree_eq_none_iff (l : List Nat) : lowestFree l = none ↔ l = [] := by
  cases l with
  | nil => simp [lowestFree]
  | cons i rest =>
    simp only [lowestFree]
    cases lowestFree rest <;> simp

theorem lowestFree_mem : ∀ (l : List Nat) (i : Nat), lowestFree l = some i → i ∈ l := by
  intro l
  induction l with
  | nil =>
    intro i h
    simp [lowestFree] at h
  | cons a rest ih =>
    intro i h
    simp only [lowestFree] at h
    cases hr : lowestFree rest with
    | none =>
      rw [hr] at h
      cases h
      exact List.mem_cons_self _ _
    | some m =>
      rw [hr] at h
      cases h
      rcases Nat.le_total a m with h' | h'
      · rw [Nat.min_eq_left h']
        exact List.mem_cons_self _ _
      · rw [Nat.min_eq_right h']
        exact List.mem_cons_of_mem _ (ih m hr)

theorem lowestFree_le :
    ∀ (l : List Nat) (i : Nat), lowestFree l = some i → ∀ j ∈ l, i ≤ j := by
  intro l
  induction l with
  | nil =>
    intro i h
    simp [lowestFree] at h
  | cons a rest ih =>
    intro i h j hj
    simp only [lowestFree] at h
    cases hr : lowestFree rest with
    | none =>
      rw [hr] at h
      cases h
      rcases List.mem_cons.mp hj with rfl | hj'
      · exact Nat.le_refl _
      · exact absurd ((lowestFree_eq_none_iff rest).mp hr ▸ hj') (List.not_mem_nil _)
    | some m =>
      rw [hr] at h
      cases h
      rcases List.mem_cons.mp hj with rfl | hj'
      · exact Nat.min_le_left _ _
      · exact Nat.le_trans (Nat.min_le_right _ _) (ih m hr j hj')

theorem QtSignalForwarder.bind_true_elim (st : QtSignalForwarder) (sender : Nat)
    (sig : Int) (params : List ParamType) (ctx : Nat) (cb : QtMetacallAdapter)
    (res : QtSignalForwarder)
    (h : st.bind sender sig params ctx cb = (true, res)) :
    checkTypeMatch cb params = true ∧
    ∃ id, lowestFree st.freeSignalBindingIds = some id ∧
      res.signalBindings = st.signalBindings ++ [(id, ⟨sender, ctx, sig, params, cb⟩)] ∧
      res.freeSignalBindingIds = st.freeSignalBindingIds.erase id ∧
      res.eventBindings = st.eventBindings := by
  unfold QtSignalForwarder.bind at h
  cases hm : checkTypeMatch cb params with
  | false =>
    rw [hm] at h
    simp at h
  | true =>
    rw [hm] at h
    cases hc : st.canAddSignalBindings with
    | false =>
      rw [hc] at h
      simp at h
    | true =>
      rw [hc] at h
      cases hlow : lowestFree st.freeSignalBindingIds with
      | none =>
        rw [hlow] at h
        simp at h
      | some id =>
        rw [hlow] at h
        simp only [Bool.not_true, Bool.false_eq_true, if_false] at h
        injection h with h1 h2
        subst h2
        exact ⟨rfl, id, rfl, rfl, rfl, rfl⟩

theorem QtSignalForwarder.bind_no_match (st : QtSignalForwarder) (sender : Nat)
    (sig : Int) (params : List ParamType) (ctx : Nat) (cb : QtMetacallAdapter)
    (h : checkTypeMatch cb params = false) :
    st.bind sender sig params ctx cb = (false, st) := by
  unfold QtSignalForwarder.bind
  simp [h]

theorem QtSignalForwarder.bind_exhausted (st : QtSignalForwarder) (sender : Nat)
    (sig : Int) (params : List ParamType) (ctx : Nat) (cb : QtMetacallAdapter)
    (h : st.freeSignalBindingIds = []) :
    st.bind sender sig params ctx cb = (false, st) := by
  unfold QtSignalForwarder.bind
  split
  · rfl
  · simp [QtSignalForwarder.canAddSignalBindings, h]

theorem QtSignalForwarder.bind_success (st : QtSignalForwarder) (sender : Nat)
    (sig : Int) (params : List ParamType) (ctx : Nat) (cb : QtMetacallAdapter)
    (hmatch : checkTypeMatch cb params = true)
    (hfree : st.freeSignalBindingIds ≠ []) :
    (st.bind sender sig params ctx cb).1 = true := by
  unfold QtSignalForwarder.bind
  have hcan : st.canAddSignalBindings = true := by
    simpa [QtSignalForwarder.canAddSignalBindings, List.isEmpty_iff] using hfree
  rcases hlow : lowestFree st.freeSignalBindingIds with _ | id
  · exact absurd ((lowestFree_eq_none_iff _).mp hlow) hfree
  · simp [hmatch, hcan, hlow]

/-- C3: `bind` rejects a callback declaring more parameters than the
notification provides; it accepts a callback with fewer or equal parameters
whose declared parameter types are positionwise compatible; on any mismatch
it returns `false` and leaves the dispatcher state unchanged. -/
theorem bind_type_match_spec (st : QtSignalForwarder) (sender : Nat) (sig : Int)
    (params : List ParamType) (ctx : Nat) (cb : QtMetacallAdapter) :
    (params.length < cb.arity → st.bind sender sig params ctx cb = (false, st)) ∧
    (checkTypeMatch cb params = false → st.bind sender sig params ctx cb = (false, st)) ∧
    (cb.arity ≤ params.length →
      (∀ p ∈ List.zip cb.paramTypes params, typeCompatible p.1 p.2 = true) →
      st.freeSignalBindingIds ≠ [] →
      (st.bind sender sig params ctx cb).1 = true) := by
  refine ⟨?_, ?_, ?_⟩
  · intro h
    apply st.bind_no_match
    simp [checkTypeMatch, Nat.not_le.mpr h]
  · intro h
    exact st.bind_no_match _ _ _ _ _ h
  · intro h1 h2 h3
    apply st.bind_success _ _ _ _ _ _ h3
    simp only [checkTypeMatch, Bool.and_eq_true, decide_eq_true_eq, List.all_eq_true]
    exact ⟨h1, h2⟩

/-- Witness for C3: a one-parameter callback on a zero-parameter
notification is rejected with the state unchanged, while the same callback
on a one-parameter notification of the identical type is accepted. -/
theorem bind_type_match_spec_witness :
    (QtSignalForwarder.initState 4).bind 1 3 [] 0
        (QtMetacallAdapter.mk [ParamType.mk 0 false] 7) =
      (false, QtSignalForwarder.initState 4) ∧
    ((QtSignalForwarder.initState 4).bind 1 3 [ParamType.mk 0 false] 0
        (QtMetacallAdapter.mk [ParamType.mk 0 false] 7)).1 = true :=
  ⟨(bind_type_match_spec _ _ _ _ _ _).1 (by decide),
   (bind_type_match_spec _ _ _ _ _ _).2.2 (by decide) (by decide) (by decide)⟩

/-- C4: the slot-id pool is fixed at construction; exhaustion makes
`canAddSignalBindings` false and `bind` fail with the state unchanged, and a
successful `bind` conserves the sum of live bindings and free ids, so the
pool is never overflowed. -/
theorem slot_pool_bounded (n : Nat) (st : QtSignalForwarder) (sender : Nat) (sig : Int)
    (params : List ParamType) (ctx : Nat) (cb : QtMetacallAdapter) :
    (QtSignalForwarder.initState n).freeSignalBindingIds = List.range n ∧
    (st.canAddSignalBindings = false ↔ st.freeSignalBindingIds = []) ∧
    (st.freeSignalBindingIds = [] → st.bind sender sig params ctx cb = (false, st)) ∧
    (∀ res, st.bind sender sig params ctx cb = (true, res) →
      res.signalBindings.length + res.freeSignalBindingIds.length =
        st.signalBindings.length + st.freeSignalBindingIds.length) := by
  refine ⟨rfl, ?_, st.bind_exhausted sender sig params ctx cb, ?_⟩
  · simp [QtSignalForwarder.canAddSignalBindings, List.isEmpty_iff]
  · intro res h
    obtain ⟨-, id, hlow, hsb, hfree, -⟩ := st.bind_true_elim _ _ _ _ _ _ h
    have hmem := lowestFree_mem _ _ hlow
    have hlen : (st.freeSignalBindingIds.erase id).length =
        st.freeSignalBindingIds.length - 1 := List.length_erase_of_mem hmem
    have hpos : 0 < st.freeSignalBindingIds.length :=
      List.length_pos.mpr (List.ne_nil_of_mem hmem)
    rw [hsb, hfree, hlen, List.length_append]
    simp only [List.length_cons, List.length_nil]
    omega

/-- Witness for C4: on a dispatcher whose pool is exhausted, `bind` fails
and returns the unchanged state. -/
theorem slot_pool_bounded_witness :
    (QtSignalForwarder.mk [] [] []).bind 1 3 [] 0 (QtMetacallAdapter.mk [] 7) =
      (false, QtSignalForwarder.mk [] [] []) :=
  (slot_pool_bounded 0 (QtSignalForwarder.mk [] [] []) 1 3 [] 0
    (QtMetacallAdapter.mk [] 7)).2.2.1 rfl

theorem QtSignalForwarder.bind_false_elim (st : QtSignalForwarder) (sender : Nat)
    (sig : Int) (params : List ParamType) (ctx : Nat) (cb : QtMetacallAdapter)
    (res : QtSignalForwarder)
    (h : st.bind sender sig params ctx cb = (false, res)) : res = st := by
  unfold QtSignalForwarder.bind at h
  cases hm : checkTypeMatch cb params with
  | false =>
    rw [hm] at h
    simp at h
    exact h.symm
  | true =>
    rw [hm] at h
    cases hc : st.canAddSignalBindings with
    | false =>
      rw [hc] at h
      simp at h
      exact h.symm
    | true =>
      rw [hc] at h
      cases hlow : lowestFree st.freeSignalBindingIds with
      | none =>
        rw [hlow] at h
        simp at h
        exact h.symm
      | some id =>
        rw [hlow] at h
        simp at h

theorem length_filter_not {α : Type} (p : α → Bool) (l : List α) :
    (l.filter fun a => !p a).length = l.length - l.countP p := by
  induction l with
  | nil => rfl
  | cons a t ih =>
    have hle : t.countP p ≤ t.length := List.countP_le_length p
    cases h : p a with
    | false =>
      simp [List.filter_cons, List.countP_cons, h, ih]
      omega
    | true =>
      simp [List.filter_cons, List.countP_cons, h, ih]

/-- C7: a successful `bind` allocates the lowest free slot id, and after
exhaustion one `unbind` that releases an id makes the next `bind` succeed
(immediate id reuse). -/
theorem lowest_id_alloc_reuse (st : QtSignalForwarder) (sender s2 : Nat) (sig sig2 : Int)
    (params : List ParamType) (ctx : Nat) (cb : QtMetacallAdapter)
    (hmatch : checkTypeMatch cb params = true) :
    (∀ i, lowestFree st.freeSignalBindingIds = some i →
      (∀ j ∈ st.freeSignalBindingIds, i ≤ j) ∧
      (st.bind sender sig params ctx cb).1 = true ∧
      (st.bind sender sig params ctx cb).2.signalBindings =
        st.signalBindings ++ [(i, ⟨sender, ctx, sig, params, cb⟩)]) ∧
    (st.freeSignalBindingIds = [] →
      st.bind sender sig params ctx cb = (false, st) ∧
      ((st.unbindSignal s2 sig2).freeSignalBindingIds ≠ [] →
        ((st.unbindSignal s2 sig2).bind sender sig params ctx cb).1 = true)) := by
  constructor
  · intro i hlow
    have hfree : st.freeSignalBindingIds ≠ [] :=
      List.ne_nil_of_mem (lowestFree_mem _ _ hlow)
    have h1 := st.bind_success sender sig params ctx cb hmatch hfree
    have heq : st.bind sender sig params ctx cb =
        (true, (st.bind sender sig params ctx cb).2) := by
      rw [← h1]
    obtain ⟨-, id, hlow', hsb, -, -⟩ := st.bind_true_elim _ _ _ _ _ _ heq
    have hid : id = i := by
      rw [hlow] at hlow'
      exact (Option.some.injEq .. ▸ hlow').symm
    exact ⟨lowestFree_le _ _ hlow, h1, hid ▸ hsb⟩
  · intro hempty
    refine ⟨st.bind_exhausted sender sig params ctx cb hempty, ?_⟩
    intro hfree
    exact (st.unbindSignal s2 sig2).bind_success sender sig params ctx cb hmatch hfree

/-- Witness for C7: on a fresh dispatcher with pool {0, 1} the first `bind`
takes slot id 0; on an exhausted dispatcher, `unbind` of the one binding
releases its id and the next `bind` then succeeds. -/
theorem lowest_id_alloc_reuse_witness :
    (((QtSignalForwarder.initState 2).bind 1 3 [] 0
        (QtMetacallAdapter.mk [] 7)).2.signalBindings =
      [(0, Binding.mk 1 0 3 [] (QtMetacallAdapter.mk [] 7))]) ∧
    (((QtSignalForwarder.mk [(0, Binding.mk 2 0 4 [] (QtMetacallAdapter.mk [] 9))] []
        []).unbindSignal 2 4).bind 1 3 [] 0 (QtMetacallAdapter.mk [] 7)).1 = true :=
  ⟨((lowest_id_alloc_reuse (QtSignalForwarder.initState 2) 1 2 3 4 [] 0
      (QtMetacallAdapter.mk [] 7) (by decide)).1 0 (by decide)).2.2,
   ((lowest_id_alloc_reuse
      (QtSignalForwarder.mk [(0, Binding.mk 2 0 4 [] (QtMetacallAdapter.mk [] 9))] [] [])
      1 2 3 4 [] 0 (QtMetacallAdapter.mk [] 7) (by decide)).2 rfl).2 (by decide)⟩

/-- C8: `bindingCount` counts live signal bindings only: a successful `bind`
raises it by one, a failed `bind` leaves the state unchanged, removing
bindings (by `unbind` or by endpoint destruction) lowers it by exactly the
number of signal bindings removed, and event bind/unbind leave it
unchanged. -/
theorem bindingCount_spec (st : QtSignalForwarder) (sender s2 : Nat) (sig sig2 : Int)
    (params : List ParamType) (ctx obj : Nat) (cb : QtMetacallAdapter)
    (ty : Nat) (fl : Option Nat) :
    (∀ res, st.bind sender sig params ctx cb = (true, res) →
      res.bindingCount = st.bindingCount + 1) ∧
    (∀ res, st.bind sender sig params ctx cb = (false, res) → res = st) ∧
    ((st.unbindSignal s2 sig2).bindingCount =
      st.bindingCount - (st.signalBindings.countP fun p => bindingMatches p.2 s2 sig2)) ∧
    ((st.destroyObject obj).bindingCount =
      st.bindingCount -
        (st.signalBindings.countP fun p => p.2.sender == obj || p.2.context == obj)) ∧
    ((st.bindEvent s2 ty cb fl).bindingCount = st.bindingCount) ∧
    ((st.unbindEvent s2 ty).bindingCount = st.bindingCount) := by
  refine ⟨?_, fun res h => st.bind_false_elim _ _ _ _ _ _ h, ?_, ?_, rfl, rfl⟩
  · intro res h
    obtain ⟨-, id, -, hsb, -, -⟩ := st.bind_true_elim _ _ _ _ _ _ h
    simp [QtSignalForwarder.bindingCount, hsb]
  · exact length_filter_not _ _
  · exact length_filter_not _ _

/-- Witness for C8: on a concrete dispatcher one successful `bind` takes the
count from 0 to 1, and an event bind leaves it at 0. -/
theorem bindingCount_spec_witness :
    (((QtSignalForwarder.initState 2).bind 1 3 [] 0
        (QtMetacallAdapter.mk [] 7)).2.bindingCount =
      (QtSignalForwarder.initState 2).bindingCount + 1) ∧
    ((QtSignalForwarder.initState 2).bindEvent 1 6 (QtMetacallAdapter.mk [] 7)
        none).bindingCount = (QtSignalForwarder.initState 2).bindingCount :=
  ⟨(bindingCount_spec (QtSignalForwarder.initState 2) 1 1 3 3 [] 0 0
      (QtMetacallAdapter.mk [] 7) 6 none).1 _ (by decide),
   (bindingCount_spec (QtSignalForwarder.initState 2) 1 1 3 3 [] 0 0
      (QtMetacallAdapter.mk [] 7) 6 none).2.2.2.2.1⟩

/-- C5: destroying an object removes every signal binding that names it as
sender and every one that names it as context (even with a different, live
sender), while bindings touching neither endpoint survive. -/
theorem destroy_removes_endpoint_bindings (st : QtSignalForwarder) (obj : Nat) :
    (∀ p ∈ (st.destroyObject obj).signalBindings,
      p.2.sender ≠ obj ∧ p.2.context ≠ obj) ∧
    (∀ p ∈ st.signalBindings, p.2.sender ≠ obj → p.2.context ≠ obj →
      p ∈ (st.destroyObject obj).signalBindings) := by
  constructor
  · intro p hp
    have := (List.mem_filter.mp hp).2
    constructor
    · intro hs
      simp [hs] at this
    · intro hc
      simp [hc] at this
  · intro p hp hs hc
    refine List.mem_filter.mpr ⟨hp, ?_⟩
    simp [hs, hc]

/-- Witness for C5: destroying object 2 removes both the binding with
sender 2 and the binding with context 2 under the live sender 3, and keeps
the unrelated binding. -/
theorem destroy_removes_endpoint_bindings_witness :
    (∀ p ∈ ((QtSignalForwarder.mk
        [(0, Binding.mk 2 0 3 [] (QtMetacallAdapter.mk [] 7)),
         (1, Binding.mk 3 2 4 [] (QtMetacallAdapter.mk [] 8)),
         (2, Binding.mk 4 5 6 [] (QtMetacallAdapter.mk [] 9))] [] []).destroyObject
          2).signalBindings,
      p.2.sender ≠ 2 ∧ p.2.context ≠ 2) ∧
    (2, Binding.mk 4 5 6 [] (QtMetacallAdapter.mk [] 9)) ∈
      ((QtSignalForwarder.mk
        [(0, Binding.mk 2 0 3 [] (QtMetacallAdapter.mk [] 7)),
         (1, Binding.mk 3 2 4 [] (QtMetacallAdapter.mk [] 8)),
         (2, Binding.mk 4 5 6 [] (QtMetacallAdapter.mk [] 9))] [] []).destroyObject
          2).signalBindings :=
  ⟨(destroy_removes_endpoint_bindings _ 2).1,
   (destroy_removes_endpoint_bindings _ 2).2 _ (by decide) (by decide) (by decide)⟩

theorem find?_filter_of_imp {α : Type} (p q : α → Bool) (l : List α)
    (h : ∀ a, p a = true → q a = true) :
    (l.filter q).find? p = l.find? p := by
  induction l with
  | nil => rfl
  | cons a t ih =>
    cases hq : q a with
    | false =>
      have hp : p a = false := by
        cases hp : p a with
        | false => rfl
        | true => exact absurd (h a hp) (by simp [hq])
      simp [List.filter_cons, hq, List.find?_cons_of_neg, hp, ih]
    | true =>
      cases hp : p a with
      | false => simp [List.filter_cons, hq, List.find?_cons_of_neg, hp, ih]
      | true => simp [List.filter_cons, hq, List.find?_cons_of_pos, hp]

/-- C6: the event binding store holds at most one binding per sender
regardless of event kind: a second event bind on the same sender overwrites
the stored binding (only the most recent survives), other senders are
unaffected, and the sender keys stay unique. -/
theorem event_binding_overwrite (st : QtSignalForwarder) (s s2 ty ty2 : Nat)
    (cb cb2 : QtMetacallAdapter) (fl fl2 : Option Nat) :
    ((st.bindEvent s ty cb fl).eventBindingFor s = some ⟨s, ty, fl, cb⟩) ∧
    (((st.bindEvent s ty cb fl).bindEvent s ty2 cb2 fl2).eventBindingFor s =
      some ⟨s, ty2, fl2, cb2⟩) ∧
    (s2 ≠ s → (st.bindEvent s ty cb fl).eventBindingFor s2 = st.eventBindingFor s2) ∧
    (((st.bindEvent s ty cb fl).eventBindings.countP fun p => p.1 == s) = 1) := by
  have key : ∀ st' : QtSignalForwarder, ∀ t : Nat, ∀ c : QtMetacallAdapter,
      ∀ f : Option Nat, (st'.bindEvent s t c f).eventBindingFor s = some ⟨s, t, f, c⟩ := by
    intro st' t c f
    have hnone : (st'.eventBindings.filter fun p => !(p.1 == s)).find?
        (fun p => p.1 == s) = none := by
      refine List.find?_eq_none.mpr ?_
      intro x hx
      have := (List.mem_filter.mp hx).2
      simp at this
      simp [this]
    simp [QtSignalForwarder.bindEvent, QtSignalForwarder.eventBindingFor,
      List.find?_append, hnone]
  refine ⟨key st ty cb fl, key _ ty2 cb2 fl2, ?_, ?_⟩
  · intro hne
    have hered : ((st.eventBindings.filter fun p => !(p.1 == s)).find?
        fun p => p.1 == s2) = st.eventBindings.find? fun p => p.1 == s2 := by
      apply find?_filter_of_imp
      intro a ha
      have : a.1 = s2 := by simpa using ha
      simp [this, hne]
    simp [QtSignalForwarder.bindEvent, QtSignalForwarder.eventBindingFor,
      List.find?_append, hered, Ne.symm hne]
  · have hzero : ((st.eventBindings.filter fun p => !(p.1 == s)).countP
        fun p => p.1 == s) = 0 := by
      refine List.countP_eq_zero.mpr ?_
      intro a ha
      have := (List.mem_filter.mp ha).2
      simp at this
      simp [this]
    simp [QtSignalForwarder.bindEvent, List.countP_append, hzero, List.countP_cons]

/-- Witness for C6: binding sender 1 for event kind 4 and then for event
kind 9 leaves only the kind-9 binding stored for sender 1, and sender 2's
binding is untouched. -/
theorem event_binding_overwrite_witness :
    ((((QtSignalForwarder.mk [] [(2, EventBinding.mk 2 5 none (QtMetacallAdapter.mk [] 3))]
        []).bindEvent 1 4 (QtMetacallAdapter.mk [] 7) none).bindEvent 1 9
        (QtMetacallAdapter.mk [] 8) (some 1)).eventBindingFor 1 =
      some (EventBinding.mk 1 9 (some 1) (QtMetacallAdapter.mk [] 8))) ∧
    (((QtSignalForwarder.mk [] [(2, EventBinding.mk 2 5 none (QtMetacallAdapter.mk [] 3))]
        []).bindEvent 1 4 (QtMetacallAdapter.mk [] 7) none).eventBindingFor 2 =
      (QtSignalForwarder.mk [] [(2, EventBinding.mk 2 5 none (QtMetacallAdapter.mk [] 3))]
        []).eventBindingFor 2) :=
  ⟨(event_binding_overwrite _ 1 2 4 9 (QtMetacallAdapter.mk [] 7)
      (QtMetacallAdapter.mk [] 8) none (some 1)).2.1,
   (event_binding_overwrite _ 1 2 4 9 (QtMetacallAdapter.mk [] 7)
      (QtMetacallAdapter.mk [] 8) none (some 1)).2.2.1 (by decide)⟩

/-- C2: notification delivery invokes only the first-registered binding
matching `(sender, signalIndex)` — exactly one invocation, of that binding's
callback, with the raw arguments truncated to its declared arity. -/
theorem dispatch_first_match (st : QtSignalForwarder) (sender : Nat) (sig : Int)
    (args : List Nat) (l1 l2 : List (Nat × Binding)) (id : Nat) (b : Binding)
    (hsplit : st.signalBindings = l1 ++ (id, b) :: l2)
    (hmatch : bindingMatches b sender sig = true)
    (hfirst : ∀ q ∈ l1, bindingMatches q.2 sender sig = false) :
    st.dispatchSignal sender sig args =
      [⟨b.callback.cbId, args.take b.callback.arity⟩] := by
  have hnone : (l1.find? fun p => bindingMatches p.2 sender sig) = none := by
    refine List.find?_eq_none.mpr ?_
    intro q hq
    simp [hfirst q hq]
  simp [QtSignalForwarder.dispatchSignal, QtSignalForwarder.matchBinding, hsplit,
    List.find?_append, hnone, List.find?_cons_of_pos, hmatch]

/-- Witness for C2: with a non-matching binding registered before two
matching ones, dispatch invokes exactly the earliest matching binding's
callback, truncating the two raw arguments to its arity of one. -/
theorem dispatch_first_match_witness :
    (QtSignalForwarder.mk
        [(0, Binding.mk 2 0 3 [] (QtMetacallAdapter.mk [] 7)),
         (1, Binding.mk 1 0 3 [ParamType.mk 0 false]
            (QtMetacallAdapter.mk [ParamType.mk 0 false] 8)),
         (2, Binding.mk 1 0 3 [ParamType.mk 0 false]
            (QtMetacallAdapter.mk [ParamType.mk 0 false] 9))] [] []).dispatchSignal
      1 3 [5, 6] = [Invocation.mk 8 [5]] :=
  dispatch_first_match _ 1 3 [5, 6]
    [(0, Binding.mk 2 0 3 [] (QtMetacallAdapter.mk [] 7))]
    [(2, Binding.mk 1 0 3 [ParamType.mk 0 false]
        (QtMetacallAdapter.mk [ParamType.mk 0 false] 9))]
    1 (Binding.mk 1 0 3 [ParamType.mk 0 false]
        (QtMetacallAdapter.mk [ParamType.mk 0 false] 8))
    rfl (by decide) (by decide)

/-- C1 (amended): after a successful `bind(sender, sig, ctx, cb)` whose
binding is the first registered for `(sender, sig)`, triggering `sig` on
`sender` invokes `cb` exactly once, with the first `cb.arity()` arguments of
the notification in their original order. -/
theorem bind_dispatch_invokes_once (st : QtSignalForwarder) (sender : Nat) (sig : Int)
    (params : List ParamType) (ctx : Nat) (cb : QtMetacallAdapter)
    (res : QtSignalForwarder) (args : List Nat)
    (hnone : st.matchBinding sender sig = none)
    (h : st.bind sender sig params ctx cb = (true, res)) :
    res.dispatchSignal sender sig args = [⟨cb.cbId, args.take cb.arity⟩] := by
  obtain ⟨-, id, -, hsb, -, -⟩ := st.bind_true_elim _ _ _ _ _ _ h
  have hfind : (st.signalBindings.find? fun p => bindingMatches p.2 sender sig) = none := by
    have := hnone
    unfold QtSignalForwarder.matchBinding at this
    exact Option.map_eq_none.mp this
  simp only [bindingMatches] at hfind
  simp [QtSignalForwarder.dispatchSignal, QtSignalForwarder.matchBinding, hsb,
    List.find?_append, bindingMatches, hfind]

/-- Witness for C1: binding callback 10 on a fresh dispatcher and triggering
signal 3 on sender 1 with arguments `[5, 6]` invokes callback 10 exactly
once with the first argument only. -/
theorem bind_dispatch_invokes_once_witness :
    (((QtSignalForwarder.initState 4).bind 1 3 [ParamType.mk 0 false] 0
        (QtMetacallAdapter.mk [ParamType.mk 0 false] 10)).2.dispatchSignal 1 3 [5, 6]) =
      [Invocation.mk 10 [5]] :=
  bind_dispatch_invokes_once (QtSignalForwarder.initState 4) 1 3 [ParamType.mk 0 false] 0
    (QtMetacallAdapter.mk [ParamType.mk 0 false] 10) _ [5, 6] (by decide) (by decide)

/-- Counterexample to C1 as stated: two successive `bind` calls for the same
`(sender, signal)` both succeed, yet triggering the notification invokes the
second bind's callback (id 20) zero times — not exactly once — because
dispatch is first-match. -/
theorem bind_dispatch_multibind_cex :
    (((QtSignalForwarder.initState 4).bind 1 3 [ParamType.mk 0 false] 0
        (QtMetacallAdapter.mk [ParamType.mk 0 false] 10)).1 = true) ∧
    ((((QtSignalForwarder.initState 4).bind 1 3 [ParamType.mk 0 false] 0
        (QtMetacallAdapter.mk [ParamType.mk 0 false] 10)).2.bind 1 3
        [ParamType.mk 0 false] 0 (QtMetacallAdapter.mk [ParamType.mk 0 false] 20)).1 =
      true) ∧
    (((((QtSignalForwarder.initState 4).bind 1 3 [ParamType.mk 0 false] 0
        (QtMetacallAdapter.mk [ParamType.mk 0 false] 10)).2.bind 1 3
        [ParamType.mk 0 false] 0
        (QtMetacallAdapter.mk [ParamType.mk 0 false] 20)).2.dispatchSignal 1 3
        [7]).countP fun inv => inv.cb == 20) = 0 := by
  decide

/-- C10: `Binding::paramType` is total on the index: an index at or past the
number of stored parameter type names yields the null pointer, an in-range
index yields the stored name at that position. -/
theorem paramType_total (b : Binding) (index : Nat) :
    (b.paramTypes.length ≤ index → b.paramType index = none) ∧
    (∀ h : index < b.paramTypes.length,
      b.paramType index = some (b.paramTypes.get ⟨index, h⟩)) := by
  constructor
  · intro h
    simp [Binding.paramType, h]
  · intro h
    simp [Binding.paramType, Nat.not_le.mpr h, List.get?_eq_get h]

/-- Witness for C10: a concrete binding with two stored type names evaluates
`paramType` to `none` at index `2` and to the first name at index `0`. -/
theorem paramType_total_witness :
    (Binding.mk 1 0 3 [ParamType.mk 0 false, ParamType.mk 1 true]
        (QtMetacallAdapter.mk [] 5)).paramType 2 = none ∧
    (Binding.mk 1 0 3 [ParamType.mk 0 false, ParamType.mk 1 true]
        (QtMetacallAdapter.mk [] 5)).paramType 0 = some (ParamType.mk 0 false) :=
  ⟨(paramType_total _ 2).1 (by decide),
   (paramType_total _ 0).2 (by decide)⟩

theorem schedInv_init (t0 d ctx cb : Nat) :
    schedInv t0 d ctx cb (delayedCall t0 d ctx cb) := by
  refine ⟨?_, ?_, ?_⟩
  · intro p hp
    simp [delayedCall] at hp
  · simp [delayedCall]
  · intro t ht
    simp [delayedCall] at ht
    simp [delayedCall, ← ht]

theorem schedInv_step (t0 d ctx cb : Nat) (s : Scheduler) (e : SchedEvent)
    (h : schedInv t0 d ctx cb s) : schedInv t0 d ctx cb (schedStep s e) := by
  obtain ⟨hlog, hlen, hpend⟩ := h
  cases e with
  | tick dd =>
    refine ⟨?_, hlen, ?_⟩
    · intro p hp
      obtain ⟨h1, h2, h3⟩ := hlog p hp
      exact ⟨h1, h2, Nat.le_trans h3 (Nat.le_add_right _ _)⟩
    · intro t ht
      exact hpend t ht
  | fire =>
    cases hp : s.pending with
    | none =>
      simpa [schedStep, hp] using ⟨hlog, hlen, hpend⟩
    | some t =>
      obtain ⟨ht, hemp⟩ := hpend t hp
      by_cases hr : t.readyTime ≤ s.now
      · simp only [schedStep, hp, hr, if_true]
        refine ⟨?_, ?_, ?_⟩
        · intro p hpmem
          rw [hemp, List.nil_append, List.mem_singleton] at hpmem
          subst hpmem
          subst ht
          exact ⟨rfl, hr, Nat.le_refl _⟩
        · rw [hemp]
          simp
        · intro t' ht'
          simp at ht'
      · simpa [schedStep, hp, hr] using ⟨hlog, hlen, hpend⟩
  | destroy o =>
    cases hp : s.pending with
    | none =>
      simpa [schedStep, hp] using ⟨hlog, hlen, hpend⟩
    | some t =>
      by_cases hg : (t.context == o && !(o == 0)) = true
      · simp only [schedStep, hp, hg, if_true]
        refine ⟨hlog, hlen, ?_⟩
        intro t' ht'
        simp at ht'
      · simp only [schedStep, hp, hg, if_false]
        exact ⟨hlog, hlen, hpend⟩

theorem schedInv_run (t0 d ctx cb : Nat) (s : Scheduler) (es : List SchedEvent)
    (h : schedInv t0 d ctx cb s) : schedInv t0 d ctx cb (schedRun s es) := by
  induction es generalizing s with
  | nil => exact h
  | cons e es ih => exact ih _ (schedInv_step t0 d ctx cb s e h)

theorem schedRun_pending_none (s : Scheduler) (es : List SchedEvent)
    (h : s.pending = none) :
    (schedRun s es).pending = none ∧ (schedRun s es).log = s.log := by
  induction es generalizing s with
  | nil => exact ⟨h, rfl⟩
  | cons e es ih =>
    have hstep : (schedStep s e).pending = none ∧ (schedStep s e).log = s.log := by
      cases e with
      | tick d => exact ⟨h, rfl⟩
      | fire => simp [schedStep, h]
      | destroy o => simp [schedStep, h]
    obtain ⟨h1, h2⟩ := ih _ hstep.1
    exact ⟨h1, h2.trans hstep.2⟩

theorem schedLive_step (t0 d ctx cb : Nat) (s : Scheduler) (e : SchedEvent)
    (hnc : ∀ o, e = SchedEvent.destroy o → ¬(o = ctx ∧ o ≠ 0))
    (h : schedLive t0 d ctx cb s) : schedLive t0 d ctx cb (schedStep s e) := by
  cases e with
  | tick dd =>
    rcases h with ⟨h1, h2⟩ | ⟨h1, h2⟩
    · exact Or.inl ⟨h1, h2⟩
    · exact Or.inr ⟨h1, h2⟩
  | fire =>
    rcases h with ⟨h1, h2⟩ | ⟨h1, h2⟩
    · by_cases hr : t0 + d ≤ s.now
      · refine Or.inr ?_
        simp [schedStep, h1, h2, hr]
      · refine Or.inl ?_
        simp [schedStep, h1, h2, hr]
    · refine Or.inr ?_
      simp [schedStep, h1, h2]
  | destroy o =>
    rcases h with ⟨h1, h2⟩ | ⟨h1, h2⟩
    · have hguard : ((⟨t0 + d, ctx, cb⟩ : DelayedCall).context == o && !(o == 0)) = false := by
        by_cases ho : o = ctx
        · subst ho
          have : ¬(o = o ∧ o ≠ 0) := hnc o rfl
          have ho0 : o = 0 := by
            by_contra hne
            exact this ⟨rfl, hne⟩
          simp [ho0]
        · simp [Ne.symm ho]
      refine Or.inl ?_
      simp [schedStep, h1, h2, hguard]
    · refine Or.inr ?_
      simp [schedStep, h1, h2]

theorem schedLive_run (t0 d ctx cb : Nat) :
    ∀ (es : List SchedEvent) (s : Scheduler),
      (∀ o, SchedEvent.destroy o ∈ es → ¬(o = ctx ∧ o ≠ 0)) →
      schedLive t0 d ctx cb s → schedLive t0 d ctx cb (schedRun s es) := by
  intro es
  induction es with
  | nil =>
    intro s _ h
    exact h
  | cons e es ih =>
    intro s hnc h
    exact ih _ (fun o ho => hnc o (List.mem_cons_of_mem _ ho))
      (schedLive_step t0 d ctx cb s e
        (fun o he => hnc o (he ▸ List.mem_cons_self _ _)) h)

/-- C9: a deferred call fires at most once, any firing is of the scheduled
callback at a time no earlier than the schedule time plus the minimum delay;
if the (non-null) context is destroyed before the delay has elapsed the
callback is never invoked; and if the context is not destroyed, a run-loop
firing attempt after the delay has elapsed invokes the callback exactly
once. -/
theorem delayedCall_spec (t0 d ctx cb : Nat) (es : List SchedEvent) :
    ((schedRun (delayedCall t0 d ctx cb) es).log.length ≤ 1 ∧
      ∀ p ∈ (schedRun (delayedCall t0 d ctx cb) es).log, p.2 = cb ∧ t0 + d ≤ p.1) ∧
    (∀ e1 e2, es = e1 ++ SchedEvent.destroy ctx :: e2 → ctx ≠ 0 →
      (schedRun (delayedCall t0 d ctx cb) e1).now < t0 + d →
      (schedRun (delayedCall t0 d ctx cb) es).log = []) ∧
    (∀ e1 e2, es = e1 ++ SchedEvent.fire :: e2 →
      (∀ o, SchedEvent.destroy o ∈ e1 → ¬(o = ctx ∧ o ≠ 0)) →
      t0 + d ≤ (schedRun (delayedCall t0 d ctx cb) e1).now →
      (schedRun (delayedCall t0 d ctx cb) es).log.length = 1) := by
  refine ⟨?_, ?_, ?_⟩
  · have hinv := schedInv_run t0 d ctx cb _ es (schedInv_init t0 d ctx cb)
    exact ⟨hinv.2.1, fun p hp => ⟨(hinv.1 p hp).1, (hinv.1 p hp).2.1⟩⟩
  · intro e1 e2 hsplit hctx hnow
    subst hsplit
    have hinv := schedInv_run t0 d ctx cb _ e1 (schedInv_init t0 d ctx cb)
    set s1 := schedRun (delayedCall t0 d ctx cb) e1 with hs1
    have hemp : s1.log = [] := by
      rcases hl : s1.log with _ | ⟨p, rest⟩
      · rfl
      · obtain ⟨-, h2, h3⟩ := hinv.1 p (hl ▸ List.mem_cons_self _ _)
        omega
    have hstep : (schedStep s1 (SchedEvent.destroy ctx)).pending = none ∧
        (schedStep s1 (SchedEvent.destroy ctx)).log = [] := by
      cases hp : s1.pending with
      | none => simp [schedStep, hp, hemp]
      | some t =>
        obtain ⟨ht, -⟩ := hinv.2.2 t hp
        subst ht
        simp [schedStep, hp, hemp, hctx]
    have hrun : schedRun (delayedCall t0 d ctx cb)
        (e1 ++ SchedEvent.destroy ctx :: e2) =
        schedRun (schedStep s1 (SchedEvent.destroy ctx)) e2 := by
      rw [hs1]
      simp [schedRun, List.foldl_append]
    rw [hrun]
    obtain ⟨-, hlog⟩ := schedRun_pending_none _ e2 hstep.1
    rw [hlog, hstep.2]
  · intro e1 e2 hsplit hnc hnow
    subst hsplit
    have hlive := schedLive_run t0 d ctx cb e1 (delayedCall t0 d ctx cb) hnc
      (Or.inl ⟨rfl, rfl⟩)
    set s1 := schedRun (delayedCall t0 d ctx cb) e1 with hs1
    have hrun : schedRun (delayedCall t0 d ctx cb) (e1 ++ SchedEvent.fire :: e2) =
        schedRun (schedStep s1 SchedEvent.fire) e2 := by
      rw [hs1]
      simp [schedRun, List.foldl_append]
    rw [hrun]
    rcases hlive with ⟨h1, h2⟩ | ⟨h1, h2⟩
    · have hstep : (schedStep s1 SchedEvent.fire).pending = none ∧
          (schedStep s1 SchedEvent.fire).log = [(s1.now, cb)] := by
        simp [schedStep, h1, h2, hnow]
      obtain ⟨-, hlog⟩ := schedRun_pending_none _ e2 hstep.1
      rw [hlog, hstep.2]
      rfl
    · have hstep : schedStep s1 SchedEvent.fire = s1 := by
        simp [schedStep, h1]
      rw [hstep]
      obtain ⟨-, hlog⟩ := schedRun_pending_none _ e2 h1
      rw [hlog, h2]

/-- Witness for C9: scheduling at time 0 with a 50-unit minimum delay and
context 3, destroying the context at time 10 yields no invocation even
though the run loop later tries to fire; without the destruction, a firing
attempt at time 50 invokes the callback exactly once. -/
theorem delayedCall_spec_witness :
    (schedRun (delayedCall 0 50 3 7)
        [SchedEvent.tick 10, SchedEvent.destroy 3, SchedEvent.tick 100,
          SchedEvent.fire]).log = [] ∧
    (schedRun (delayedCall 0 50 3 7)
        [SchedEvent.tick 50, SchedEvent.fire]).log.length = 1 :=
  ⟨(delayedCall_spec 0 50 3 7 _).2.1 [SchedEvent.tick 10]
      [SchedEvent.tick 100, SchedEvent.fire] rfl (by decide) (by decide),
   (delayedCall_spec 0 50 3 7 _).2.2 [SchedEvent.tick 50] [] rfl
      (by intro o ho; simp at ho) (by decide)⟩
